import Mathlib

/-!
Shallow embedding of the metrics engine of the Shaker-Optimization dashboard
(src/app.py).  A pandas DataFrame is modelled as an association list from
column names to columns of rational values; every engine operation from the
source (timestamp date filter, screen-utilization derivation, summary
statistics with the anomaly branch, solids-removal efficiency) is translated
as a pure function over that model.  Undefined statistics (pandas NaN from
mean/min/max of an empty column) are modelled as `none`; Python comparisons
against NaN are `False`, which the anomaly branch reflects.
-/

deriving instance DecidableEq for Except

namespace Shaker

/-- Column names used by src/app.py. -/
def shakerCol : String := "SHAKER #3 (PERCENT)"

def screenCol : String := "Screen Utilization (%)"

def solidsCol : String := "Solids Volume Rate (gpm)"

def wobCol : String := "Weight on Bit (klbs)"

def flowCol : String := "MA_Flow_Rate (gal/min)"

def bitDepthCol : String := "Bit Depth (feet)"

def holeDepthCol : String := "Hole Depth (feet)"

def dateCol : String := "Date"

/-- A DataFrame: ordered association list of column name to column values.
Dates are encoded as rationals (opaque codes); all pandas columns the engine
touches are numeric. -/
abbrev Frame := List (String × List ℚ)

/-- `df[name]` as an optional lookup: `none` models the KeyError /
column-absent case (`name in df.columns` is `False`). -/
def getCol : Frame → String → Option (List ℚ)
  | [], _ => none
  | c :: rest, name => if c.1 = name then some c.2 else getCol rest name

/-- `name in df.columns`. -/
def hasCol (df : Frame) (name : String) : Bool := (getCol df name).isSome

/-- `SCREEN_MESH_CAPACITY` table from the sidebar (app.py line 26). -/
def SCREEN_MESH_CAPACITY (mesh : String) : Option ℚ :=
  if mesh = "API 100" then some 250
  else if mesh = "API 140" then some 200
  else if mesh = "API 170" then some 160
  else if mesh = "API 200" then some 120
  else none

/-- pandas `Series.mean()`: NaN (here `none`) on an empty column. -/
def colMean (l : List ℚ) : Option ℚ :=
  match l with
  | [] => none
  | _ => some (l.sum / l.length)

/-- pandas `Series.min()`: NaN (here `none`) on an empty column. -/
def colMin (l : List ℚ) : Option ℚ :=
  match l with
  | [] => none
  | x :: xs => some (xs.foldl min x)

/-- pandas `Series.max()`: NaN (here `none`) on an empty column. -/
def colMax (l : List ℚ) : Option ℚ :=
  match l with
  | [] => none
  | x :: xs => some (xs.foldl max x)

/-- The boolean mask `df['Date'] == selected_date` (app.py line 58). -/
def maskOf (dates : List ℚ) (d : ℚ) : List Bool :=
  dates.map (fun x => decide (x = d))

/-- Row selection by a boolean mask, applied to one column. -/
def applyMask : List Bool → List ℚ → List ℚ
  | b :: m, x :: v => if b then x :: applyMask m v else applyMask m v
  | _, _ => []

/-- `df = df[df['Date'] == selected_date]` guarded by
`if 'Date' in df.columns` (app.py lines 55-58): every column is filtered by
the mask computed from the `Date` column. -/
def filterDate (df : Frame) (d : ℚ) : Frame :=
  match getCol df dateCol with
  | none => df
  | some dates => df.map (fun c => (c.1, applyMask (maskOf dates d) c.2))

/-- `df[name] = vals`: pandas column assignment replaces the values of an
existing column in place, else appends the new column at the end. -/
def setCol : Frame → String → List ℚ → Frame
  | [], name, vals => [(name, vals)]
  | c :: rest, name, vals =>
      if c.1 = name then (name, vals) :: rest else c :: setCol rest name vals

/-- Screen-utilization derivation block (app.py lines 61-64): only when
`Screen Utilization (%)` is absent and both `Weight on Bit (klbs)` and
`MA_Flow_Rate (gal/min)` are present, assign the solids-rate column and then
the utilization column; otherwise the frame passes through unchanged. -/
def deriveUtilization (df : Frame) (meshCapacity : ℚ) : Frame :=
  if hasCol df screenCol then df
  else
    match getCol df wobCol, getCol df flowCol with
    | some w, some f =>
        let solids := List.zipWith (fun a b => a * b / 100) w f
        let util := solids.map (fun s => s / meshCapacity * 100)
        setCol (setCol df solidsCol solids) screenCol util
    | _, _ => df

/-- Anomaly status decided by the branch at app.py lines 89-92 (no message
shown means Normal). -/
inductive Status where
  | Critical
  | Warning
  | Normal
deriving DecidableEq, Repr

/-- The anomaly rules of app.py lines 89-92 as a pure function of the shaker
load mean and max, first match winning. -/
def classifyAnomaly (mean mx : ℚ) : Status :=
  if mean < 0 ∨ mx > 150 then Status.Critical
  else if mean < 20 then Status.Warning
  else Status.Normal

/-- The same branch on possibly-undefined (NaN) statistics: every Python
comparison against NaN is `False`, so both guards fail and no message is
shown (Normal). -/
def anomalyOfStats (mean mx : Option ℚ) : Status :=
  match mean, mx with
  | some m, some M => classifyAnomaly m M
  | _, _ => Status.Normal

/-- `screen_life = 120 - ((screen_avg / 100) * 30)` (app.py line 81). -/
def screenLifeFun (u : ℚ) : ℚ := 120 - u / 100 * 30

/-- The scalars computed inside the summary `try` block (app.py lines
68-95). `none` models a NaN statistic. -/
structure Summary where
  totalDepth : Option ℚ
  shakerAvg : Option ℚ
  shakerMin : Option ℚ
  shakerMax : Option ℚ
  screenAvg : Option ℚ
  screenMin : Option ℚ
  screenMax : Option ℚ
  screenLife : Option ℚ
  anomaly : Status
deriving DecidableEq, Repr

/-- The summary `try` block (app.py lines 68-95): the depth column is
`Bit Depth (feet)` when present, else `Hole Depth (feet)`; the first access
to an absent column raises KeyError, caught by the single `except` which
shows "Summary stats unavailable" — modelled as `Except.error ()`.  NaN
statistics from empty columns do not raise and flow through. -/
def summarize (df : Frame) : Except Unit Summary :=
  match getCol df (if hasCol df bitDepthCol then bitDepthCol else holeDepthCol) with
  | none => Except.error ()
  | some depth =>
    match getCol df shakerCol with
    | none => Except.error ()
    | some shaker =>
      match getCol df screenCol with
      | none => Except.error ()
      | some screen =>
        Except.ok
          { totalDepth := colMax depth
            shakerAvg := colMean shaker
            shakerMin := colMin shaker
            shakerMax := colMax shaker
            screenAvg := colMean screen
            screenMin := colMin screen
            screenMax := colMax screen
            screenLife := (colMean screen).map screenLifeFun
            anomaly := anomalyOfStats (colMean shaker) (colMax shaker) }

/-- `1e-5`, the guard added to the denominator of the efficiency formula. -/
def epsQ : ℚ := 1 / 100000

/-- The efficiency tab computation (app.py lines 126-129):
`in_rate = wob * flow / 100`, `efficiency = shaker / (in_rate + 1e-5) * 100`,
`eff_avg = efficiency.mean()`; a missing column raises KeyError, caught by
the tab's own `except`. -/
def computeEfficiency (df : Frame) : Except Unit (List ℚ × Option ℚ) :=
  match getCol df wobCol, getCol df flowCol, getCol df shakerCol with
  | some w, some fl, some s =>
      let inRate := List.zipWith (fun a b => a * b / 100) w fl
      let eff := List.zipWith (fun o r => o / (r + epsQ) * 100) s inRate
      Except.ok (eff, colMean eff)
  | _, _, _ => Except.error ()

/-- `values=[eff_avg, 100 - eff_avg]` passed to the pie chart (app.py line
130), with no clamping or flagging. -/
def pieValues (effAvg : ℚ) : List ℚ := [effAvg, 100 - effAvg]

/-- `df[df['SHAKER #3 (PERCENT)'] < -10]` (app.py line 111). -/
def detectDrops (df : Frame) : Except Unit (List ℚ) :=
  match getCol df shakerCol with
  | none => Except.error ()
  | some s => Except.ok (s.filter (fun x => decide (x < -10)))

/-- All columns of the frame have the same number of rows — the pandas
DataFrame invariant (every column shares the index). -/
def Wf (df : Frame) (n : Nat) : Prop := ∀ c ∈ df, (c.2).length = n

/-- The end-to-end example series of the spec (two readings, loads 50 and
-20, utilization already derived to 8 per row, depths 1000 and 1005). -/
def exFrameA : Frame :=
  [(bitDepthCol, [1000, 1005]), (shakerCol, [50, -20]), (screenCol, [8, 8])]

/-- Summary the engine computes on `exFrameA`. -/
def exSummaryA : Summary :=
  { totalDepth := some 1005
    shakerAvg := some 15
    shakerMin := some (-20)
    shakerMax := some 50
    screenAvg := some 8
    screenMin := some 8
    screenMax := some 8
    screenLife := some 117.6
    anomaly := Status.Warning }

/-- A series whose columns are present but hold zero rows (empty after the
date filter). -/
def emptyFrame : Frame := [(bitDepthCol, []), (shakerCol, []), (screenCol, [])]

/-- A series with the shaker-load and utilization columns but neither depth
column. -/
def noDepthFrame : Frame := [(shakerCol, [50, -20]), (screenCol, [8, 8])]

/-- Like `noDepthFrame` but with the efficiency inputs also present. -/
def noDepthFullFrame : Frame :=
  [(shakerCol, [50, -20]), (screenCol, [8, 8]), (wobCol, [0, 0]), (flowCol, [100, 100])]

/-- One reading with zero weight on bit and zero flow but load -50: the
efficiency formula yields -500000000. -/
def cexEffFrame : Frame := [(wobCol, [0]), (flowCol, [0]), (shakerCol, [-50])]

/-- Weight-on-bit and flow-rate columns plus a pre-existing solids-rate
column (and no utilization column). -/
def solidsPresentFrame : Frame :=
  [(wobCol, [10]), (flowCol, [200]), (solidsCol, [999])]

/-- Input for the utilization derivation with no derived columns present. -/
def derivInputFrame : Frame := [(wobCol, [10]), (flowCol, [200])]

/-- Two readings of day 1 and one of day 2, with shaker loads. -/
def twoDayFrame : Frame := [(dateCol, [1, 1, 2]), (shakerCol, [50, -20, 30])]

/-- Weight on bit equal to zero on every row, loads 50 and -20. -/
def zeroWobFrame : Frame :=
  [(wobCol, [0, 0]), (flowCol, [200, 300]), (shakerCol, [50, -20])]

/-! ## Helper lemmas about the frame operations -/

theorem getCol_map (df : Frame) (g : List ℚ → List ℚ) (name : String) :
    getCol (df.map (fun c => (c.1, g c.2))) name = (getCol df name).map g := by
  induction df with
  | nil => rfl
  | cons c rest ih => by_cases h : c.1 = name <;> simp [getCol, h, ih]

theorem mem_of_getCol {df : Frame} {name : String} {v : List ℚ}
    (h : getCol df name = some v) : (name, v) ∈ df := by
  induction df with
  | nil => simp [getCol] at h
  | cons c rest ih =>
      obtain ⟨c1, c2⟩ := c
      by_cases hn : c1 = name
      · subst hn
        simp [getCol] at h
        subst h
        exact List.mem_cons_self _ _
      · simp [getCol, hn] at h
        exact List.mem_cons_of_mem _ (ih h)

theorem getCol_setCol_self (df : Frame) (name : String) (vals : List ℚ) :
    getCol (setCol df name vals) name = some vals := by
  induction df with
  | nil => simp [setCol, getCol]
  | cons c rest ih =>
      by_cases h : c.1 = name
      · simp [setCol, getCol, h]
      · simp [setCol, getCol, h, ih]

theorem getCol_setCol_of_ne (df : Frame) {name col : String} (vals : List ℚ)
    (h : name ≠ col) : getCol (setCol df col vals) name = getCol df name := by
  induction df with
  | nil => simp [setCol, getCol, Ne.symm h]
  | cons c rest ih =>
      by_cases hc : c.1 = col
      · simp [setCol, getCol, hc, Ne.symm h]
      · simp [setCol, getCol, hc, ih]

theorem setCol_of_absent {df : Frame} {name : String} (vals : List ℚ)
    (h : getCol df name = none) : setCol df name vals = df ++ [(name, vals)] := by
  induction df with
  | nil => simp [setCol]
  | cons c rest ih =>
      by_cases hc : c.1 = name
      · simp [getCol, hc] at h
      · simp [getCol, hc] at h
        simp [setCol, hc, ih h]

theorem length_applyMask_congr (m : List Bool) :
    ∀ (u v : List ℚ), u.length = v.length →
      (applyMask m u).length = (applyMask m v).length := by
  induction m with
  | nil => intro u v _; cases u <;> cases v <;> simp [applyMask]
  | cons b m ih =>
      intro u v h
      cases u with
      | nil =>
          cases v with
          | nil => rfl
          | cons y ys => simp at h
      | cons x xs =>
          cases v with
          | nil => simp at h
          | cons y ys =>
              simp only [List.length_cons, Nat.add_right_cancel_iff] at h
              cases b with
              | true => simp [applyMask, ih xs ys h]
              | false => simp [applyMask, ih xs ys h]

theorem eq_of_mem_applyMask_maskOf {dates : List ℚ} {d x : ℚ}
    (h : x ∈ applyMask (maskOf dates d) dates) : x = d := by
  induction dates with
  | nil => simp [maskOf, applyMask] at h
  | cons a rest ih =>
      by_cases ha : a = d
      · simp [maskOf, applyMask, ha] at h
        rcases h with h | h
        · exact h
        · exact ih (by simpa [maskOf] using h)
      · simp [maskOf, applyMask, ha] at h
        exact ih (by simpa [maskOf] using h)

theorem maskOf_eq_replicate {l : List ℚ} {d : ℚ} (h : ∀ x ∈ l, x = d) :
    maskOf l d = List.replicate l.length true := by
  induction l with
  | nil => rfl
  | cons a rest ih =>
      have ha : a = d := h a (by simp)
      have hrest := ih fun x hx => h x (by simp [hx])
      simp only [maskOf, List.map_cons, List.length_cons, List.replicate_succ]
      simp only [maskOf] at hrest
      simp [ha, hrest]

theorem applyMask_replicate_true :
    ∀ (v : List ℚ) (n : Nat), v.length ≤ n → applyMask (List.replicate n true) v = v := by
  intro v
  induction v with
  | nil => intro n _; cases n <;> simp [applyMask, List.replicate_succ]
  | cons x xs ih =>
      intro n hn
      cases n with
      | zero => simp at hn
      | succ k =>
          simp only [List.replicate_succ, applyMask, if_pos rfl]
          simp only [List.length_cons, Nat.succ_le_succ_iff] at hn
          simp [ih k hn]

theorem getCol_append_some {df₁ : Frame} (df₂ : Frame) {name : String} {v : List ℚ}
    (h : getCol df₁ name = some v) : getCol (df₁ ++ df₂) name = some v := by
  induction df₁ with
  | nil => simp [getCol] at h
  | cons c rest ih =>
      by_cases hc : c.1 = name
      · simp [getCol, hc] at h
        simp [getCol, hc, h]
      · simp [getCol, hc] at h
        simp [getCol, hc, ih h]

theorem getCol_append_none {df₁ df₂ : Frame} {name : String}
    (h : getCol df₁ name = none) : getCol (df₁ ++ df₂) name = getCol df₂ name := by
  induction df₁ with
  | nil => simp
  | cons c rest ih =>
      by_cases hc : c.1 = name
      · simp [getCol, hc] at h
      · simp [getCol, hc] at h
        simp [getCol, hc, ih h]

theorem zipWith_eff_zero_wob (eps : ℚ) :
    ∀ (s w fl : List ℚ), (∀ x ∈ w, x = 0) →
      s.length ≤ w.length → s.length ≤ fl.length →
      List.zipWith (fun o r => o / (r + eps) * 100) s
          (List.zipWith (fun a b => a * b / 100) w fl)
        = s.map (fun o => o / (0 + eps) * 100) := by
  intro s
  induction s with
  | nil => intro w fl _ _ _; simp
  | cons o os ih =>
      intro w fl hz hw hf
      cases w with
      | nil => simp at hw
      | cons a w2 =>
          cases fl with
          | nil => simp at hf
          | cons b fl2 =>
              have ha : a = 0 := hz a (by simp)
              simp only [List.zipWith_cons_cons, List.map_cons]
              rw [ha, zero_mul, zero_div]
              exact congrArg _ (ih w2 fl2 (fun x hx => hz x (by simp [hx]))
                (by simpa using hw) (by simpa using hf))

theorem filterDate_idem {df : Frame} (d : ℚ) {n : Nat} (h : Wf df n) :
    filterDate (filterDate df d) d = filterDate df d := by
  cases hdc : getCol df dateCol with
  | none => simp [filterDate, hdc]
  | some dates =>
      have hlen : dates.length = n := h _ (mem_of_getCol hdc)
      have h2 : getCol (df.map (fun c => (c.1, applyMask (maskOf dates d) c.2))) dateCol
          = some (applyMask (maskOf dates d) dates) := by
        rw [getCol_map, hdc]
        rfl
      simp only [filterDate, hdc, h2, List.map_map]
      apply List.map_congr_left
      intro c hc
      have hcl : c.2.length = n := h c hc
      have hm : maskOf (applyMask (maskOf dates d) dates) d
          = List.replicate (applyMask (maskOf dates d) dates).length true :=
        maskOf_eq_replicate fun x hx => eq_of_mem_applyMask_maskOf hx
      have hl : (applyMask (maskOf dates d) c.2).length
          = (applyMask (maskOf dates d) dates).length :=
        length_applyMask_congr _ _ _ (by rw [hcl, hlen])
      simp [Function.comp, hm, applyMask_replicate_true _ _ (le_of_eq hl)]

/-! ## Claims -/

/-- Claim C1: classifyAnomaly is a pure function of the shaker-load mean and
max whose rules are evaluated in order with first match winning: Critical
when mean < 0 or max > 150, else Warning when mean < 20, else Normal.  In
particular mean=-1 gives Critical for any max, mean=25 with max=160 gives
Critical, mean=10 with max=50 gives Warning, mean=50 with max=60 gives
Normal, and mean=15 with max=50 (the end-to-end example with loads 50 and
-20) gives Warning; when the Critical and Warning guards both hold,
Critical wins; and the anomaly reported by summarize is exactly
classifyAnomaly of the computed shaker mean and max. -/
theorem C1_classify_anomaly :
    (∀ mx : ℚ, classifyAnomaly (-1) mx = Status.Critical) ∧
    classifyAnomaly 25 160 = Status.Critical ∧
    classifyAnomaly 10 50 = Status.Warning ∧
    classifyAnomaly 50 60 = Status.Normal ∧
    classifyAnomaly 15 50 = Status.Warning ∧
    (∀ m mx : ℚ, m < 20 → (m < 0 ∨ mx > 150) → classifyAnomaly m mx = Status.Critical) ∧
    (∀ (df : Frame) (s : Summary) (m mx : ℚ), summarize df = Except.ok s →
      s.shakerAvg = some m → s.shakerMax = some mx → s.anomaly = classifyAnomaly m mx) := by
  refine ⟨?_, ?_, ?_, ?_, ?_, ?_, ?_⟩
  · intro mx
    norm_num [classifyAnomaly]
  · norm_num [classifyAnomaly]
  · norm_num [classifyAnomaly]
  · norm_num [classifyAnomaly]
  · norm_num [classifyAnomaly]
  · intro m mx _ hcrit
    unfold classifyAnomaly
    rw [if_pos hcrit]
  · intro df s m mx hok ha hm
    unfold summarize at hok
    repeat' split at hok
    any_goals exact Except.noConfusion hok
    simp only [Except.ok.injEq] at hok
    subst hok
    simp only at ha hm ⊢
    rw [ha, hm]
    simp [anomalyOfStats]

/-- Witness for C1: the order of rule evaluation at mean=10, max=160, where
both the Critical and the Warning guards hold, gives Critical. -/
theorem C1_witness : classifyAnomaly 10 160 = Status.Critical :=
  C1_classify_anomaly.2.2.2.2.2.1 10 160 (by norm_num) (Or.inr (by norm_num))

/-- Claim C2: deriveUtilization leaves the frame completely unchanged when a
Screen Utilization (%) column is already present, whatever the other
columns, and also when that column is absent but one of the weight-on-bit
and flow-rate columns is missing; it computes only when utilization is
absent and both inputs are present. -/
theorem C2_derive_noop :
    (∀ (df : Frame) (mesh : ℚ), hasCol df screenCol = true →
      deriveUtilization df mesh = df) ∧
    (∀ (df : Frame) (mesh : ℚ),
      hasCol df wobCol = false ∨ hasCol df flowCol = false →
      deriveUtilization df mesh = df) := by
  constructor
  · intro df mesh h
    simp [deriveUtilization, h]
  · intro df mesh h
    by_cases hs : hasCol df screenCol
    · simp [deriveUtilization, hs]
    · rcases h with h | h
      · have hn : getCol df wobCol = none := by
          cases hg : getCol df wobCol with
          | none => rfl
          | some v => rw [hasCol, hg] at h; simp at h
        simp [deriveUtilization, hs, hn]
      · have hn : getCol df flowCol = none := by
          cases hg : getCol df flowCol with
          | none => rfl
          | some v => rw [hasCol, hg] at h; simp at h
        cases hw : getCol df wobCol <;> simp [deriveUtilization, hs, hn, hw]

/-- Witness for C2: a frame that already carries the utilization column
passes through unchanged. -/
theorem C2_witness : deriveUtilization [(screenCol, [5])] 250 = [(screenCol, [5])] :=
  C2_derive_noop.1 [(screenCol, [5])] 250 (by simp [hasCol, getCol])

/-- Claim C3: when deriveUtilization computes, the derived columns satisfy
solids = wob * flow / 100 and utilization = solids / meshCapacity * 100
row by row, unclamped, and each row with wob=10 and flow=200 under
meshCapacity=250 derives utilization exactly 8. -/
theorem C3_derive_formula (df : Frame) (mesh : ℚ) (w f : List ℚ)
    (hscreen : hasCol df screenCol = false)
    (hw : getCol df wobCol = some w) (hf : getCol df flowCol = some f) :
    ∃ solids util : List ℚ,
      getCol (deriveUtilization df mesh) solidsCol = some solids ∧
      getCol (deriveUtilization df mesh) screenCol = some util ∧
      solids = List.zipWith (fun a b => a * b / 100) w f ∧
      util = solids.map (fun s => s / mesh * 100) ∧
      (mesh = 250 →
        ∀ (i : Nat) (h1 : i < w.length) (h2 : i < f.length) (h3 : i < util.length),
          w.get ⟨i, h1⟩ = 10 → f.get ⟨i, h2⟩ = 200 → util.get ⟨i, h3⟩ = 8) := by
  refine ⟨List.zipWith (fun a b => a * b / 100) w f,
    (List.zipWith (fun a b => a * b / 100) w f).map (fun s => s / mesh * 100),
    ?_, ?_, rfl, rfl, ?_⟩
  · have hscc : screenCol ≠ solidsCol := by simp [screenCol, solidsCol]
    simp [deriveUtilization, hscreen, hw, hf,
      getCol_setCol_of_ne _ _ (Ne.symm hscc), getCol_setCol_self]
  · simp [deriveUtilization, hscreen, hw, hf, getCol_setCol_self]
  · intro h250 i h1 h2 h3 hw10 hf200
    subst h250
    have hz : i < (List.zipWith (fun a b : ℚ => a * b / 100) w f).length := by
      simpa using h3
    rw [List.get_eq_getElem, List.getElem_map, List.getElem_zipWith]
    rw [List.get_eq_getElem] at hw10 hf200
    rw [hw10, hf200]
    norm_num

/-- Witness for C3: on a one-row frame with wob=10 and flow=200 under mesh
capacity 250, the derived utilization column is [8]. -/
theorem C3_witness :
    ∃ solids util : List ℚ,
      getCol (deriveUtilization derivInputFrame 250) solidsCol = some solids ∧
      getCol (deriveUtilization derivInputFrame 250) screenCol = some util ∧
      solids = List.zipWith (fun a b => a * b / 100) [10] [200] ∧
      util = solids.map (fun s => s / 250 * 100) ∧
      ((250 : ℚ) = 250 →
        ∀ (i : Nat) (h1 : i < List.length [(10 : ℚ)]) (h2 : i < List.length [(200 : ℚ)])
          (h3 : i < util.length),
          List.get [(10 : ℚ)] ⟨i, h1⟩ = 10 → List.get [(200 : ℚ)] ⟨i, h2⟩ = 200 →
          util.get ⟨i, h3⟩ = 8) :=
  C3_derive_formula derivInputFrame 250 [10] [200]
    (by simp [hasCol, getCol, derivInputFrame, wobCol, flowCol, screenCol])
    (by simp [getCol, derivInputFrame, wobCol, flowCol])
    (by simp [getCol, derivInputFrame, wobCol, flowCol])

/-- Claim C4: the screen-life estimate computed by summarize is the linear
function 120 - 0.3 * u of the utilization mean u, with value 120 at u=0, 90
at u=100, and 117.6 at the end-to-end example mean u=8. -/
theorem C4_screen_life :
    (∀ u : ℚ, screenLifeFun u = 120 - 0.3 * u) ∧
    screenLifeFun 0 = 120 ∧
    screenLifeFun 100 = 90 ∧
    screenLifeFun 8 = 117.6 ∧
    (∀ (df : Frame) (s : Summary), summarize df = Except.ok s →
      s.screenLife = s.screenAvg.map screenLifeFun) := by
  refine ⟨?_, by norm_num [screenLifeFun], by norm_num [screenLifeFun],
    by norm_num [screenLifeFun], ?_⟩
  · intro u
    rw [screenLifeFun]
    ring_nf
  · intro df s hok
    unfold summarize at hok
    repeat' split at hok
    any_goals exact Except.noConfusion hok
    simp only [Except.ok.injEq] at hok
    subst hok
    rfl

/-- Witness for C4: on the end-to-end example frame the summary's screen
life is the linear function applied to the utilization mean 8, i.e. 117.6. -/
theorem C4_witness : exSummaryA.screenLife = exSummaryA.screenAvg.map screenLifeFun :=
  C4_screen_life.2.2.2.2 exFrameA exSummaryA (by
    simp [summarize, exFrameA, exSummaryA, getCol, hasCol, bitDepthCol, shakerCol,
      screenCol, holeDepthCol, colMean, colMin, colMax, anomalyOfStats,
      classifyAnomaly, screenLifeFun]
    norm_num)

/-- Claim C5: computeEfficiency never raises a division error: with the
three input columns present it always returns the series whose rows are
shakerLoad / (inRate + 1e-5) * 100 with inRate = wob * flow / 100, and in
particular with weight on bit zero on every row each efficiency value is the
finite shakerLoad / 1e-5 * 100. -/
theorem C5_efficiency_no_div_error (df : Frame) (w fl s : List ℚ)
    (hw : getCol df wobCol = some w) (hf : getCol df flowCol = some fl)
    (hs : getCol df shakerCol = some s) :
    computeEfficiency df =
      Except.ok
        (List.zipWith (fun o r => o / (r + epsQ) * 100) s
          (List.zipWith (fun a b => a * b / 100) w fl),
         colMean (List.zipWith (fun o r => o / (r + epsQ) * 100) s
          (List.zipWith (fun a b => a * b / 100) w fl))) ∧
    ((∀ x ∈ w, x = 0) → s.length ≤ w.length → s.length ≤ fl.length →
      computeEfficiency df =
        Except.ok (s.map (fun o => o / (0 + epsQ) * 100),
          colMean (s.map (fun o => o / (0 + epsQ) * 100)))) := by
  have h1 : computeEfficiency df =
      Except.ok
        (List.zipWith (fun o r => o / (r + epsQ) * 100) s
          (List.zipWith (fun a b => a * b / 100) w fl),
         colMean (List.zipWith (fun o r => o / (r + epsQ) * 100) s
          (List.zipWith (fun a b => a * b / 100) w fl))) := by
    simp [computeEfficiency, hw, hf, hs]
  refine ⟨h1, fun hz hlw hlf => ?_⟩
  rw [h1, zipWith_eff_zero_wob epsQ s w fl hz hlw hlf]

/-- Witness for C5: on a two-row frame with zero weight on bit everywhere,
the efficiency series is the loads divided by 1e-5 times 100. -/
theorem C5_witness :
    computeEfficiency zeroWobFrame =
      Except.ok (([50, -20] : List ℚ).map (fun o => o / (0 + epsQ) * 100),
        colMean (([50, -20] : List ℚ).map (fun o => o / (0 + epsQ) * 100))) :=
  (C5_efficiency_no_div_error zeroWobFrame [0, 0] [200, 300] [50, -20]
    (by simp [getCol, zeroWobFrame, wobCol, flowCol, shakerCol])
    (by simp [getCol, zeroWobFrame, wobCol, flowCol, shakerCol])
    (by simp [getCol, zeroWobFrame, wobCol, flowCol, shakerCol])).2
    (by intro x hx; simpa using hx) (by simp) (by simp)

/-- Claim C6 is a code bug: the mean efficiency is passed to the pie values
unmodified even when it lies outside [0,100].  On the one-row frame with
load -50 and zero weight on bit and flow, the mean efficiency is
-500000000, outside [0,100], and the pie receives exactly
[-500000000, 500000100] — no clamping or flagging happens. -/
theorem C6_unclamped_pie :
    computeEfficiency cexEffFrame = Except.ok ([-500000000], some (-500000000)) ∧
    ¬ ((0 : ℚ) ≤ -500000000 ∧ (-500000000 : ℚ) ≤ 100) ∧
    pieValues (-500000000) = [-500000000, 500000100] := by
  refine ⟨?_, by norm_num, by norm_num [pieValues]⟩
  simp [computeEfficiency, cexEffFrame, getCol, wobCol, flowCol, shakerCol,
    colMean, epsQ]
  norm_num

/-- Claim C7 is a code bug: on the empty series (all columns present, zero
rows) summarize does not produce the "statistics unavailable" condition; it
returns normally with every statistic undefined (NaN) and no anomaly
message (Normal), because mean/min/max of an empty column is NaN and NaN
raises no exception. -/
theorem C7_empty_series_not_flagged :
    summarize emptyFrame =
      Except.ok
        { totalDepth := none, shakerAvg := none, shakerMin := none,
          shakerMax := none, screenAvg := none, screenMin := none,
          screenMax := none, screenLife := none, anomaly := Status.Normal } ∧
    summarize emptyFrame ≠ Except.error () := by
  constructor
  · simp [summarize, emptyFrame, getCol, hasCol, bitDepthCol, shakerCol,
      screenCol, holeDepthCol, colMean, colMin, colMax, anomalyOfStats]
  · simp [summarize, emptyFrame, getCol, hasCol, bitDepthCol, shakerCol,
      screenCol, holeDepthCol, colMean, colMin, colMax, anomalyOfStats]

/-- Counterexample for C8: on a series with the shaker-load column present
but neither depth column, the whole summary block fails — summarize returns
the error condition and no Summary (hence no shaker mean/min/max and no
anomaly classification) is produced. -/
theorem C8_counterexample :
    summarize noDepthFrame = Except.error () ∧
    ∀ s : Summary, summarize noDepthFrame ≠ Except.ok s := by
  have h : summarize noDepthFrame = Except.error () := by
    simp [summarize, noDepthFrame, getCol, hasCol, bitDepthCol, shakerCol,
      screenCol, holeDepthCol]
  exact ⟨h, fun s hs => by rw [h] at hs; exact Except.noConfusion hs⟩

/-- Claim C8 as amended: the summary block fails as one unit — whenever
neither depth column is present, summarize yields the error condition, so
the shaker statistics and the anomaly classification are not reported
either; independence holds only between the summary block and the
separately guarded tab computations, e.g. computeEfficiency still succeeds
on the same frame when its own columns are present. -/
theorem C8_summary_fails_as_block (df : Frame)
    (h1 : hasCol df bitDepthCol = false) (h2 : hasCol df holeDepthCol = false) :
    summarize df = Except.error () ∧
    (∀ w fl s, getCol df wobCol = some w → getCol df flowCol = some fl →
      getCol df shakerCol = some s →
      ∃ r, computeEfficiency df = Except.ok r) := by
  constructor
  · have hnone : getCol df holeDepthCol = none := by
      cases hg : getCol df holeDepthCol with
      | none => rfl
      | some v => rw [hasCol, hg] at h2; simp at h2
    simp [summarize, h1, hnone]
  · intro w fl s hw hf hs
    refine ⟨(List.zipWith (fun o r => o / (r + epsQ) * 100) s
      (List.zipWith (fun a b => a * b / 100) w fl),
      colMean (List.zipWith (fun o r => o / (r + epsQ) * 100) s
        (List.zipWith (fun a b => a * b / 100) w fl))), ?_⟩
    simp [computeEfficiency, hw, hf, hs]

/-- Witness for C8: on a concrete frame with shaker, utilization, weight on
bit and flow rate but no depth column, summarize fails as a block. -/
theorem C8_witness : summarize noDepthFullFrame = Except.error () :=
  (C8_summary_fails_as_block noDepthFullFrame
    (by simp [hasCol, getCol, noDepthFullFrame, bitDepthCol, shakerCol,
      screenCol, wobCol, flowCol])
    (by simp [hasCol, getCol, noDepthFullFrame, holeDepthCol, shakerCol,
      screenCol, wobCol, flowCol])).1

/-- Claim C9: filtering a series to a single date is idempotent with respect
to the derived metrics: filtering again to the same date leaves the frame,
hence the summary of the derived frame and the efficiency result, exactly
the same — the engine recomputed on identical input gives identical
output. -/
theorem C9_filter_metrics_idempotent (df : Frame) (d mesh : ℚ) (n : Nat)
    (h : Wf df n) :
    filterDate (filterDate df d) d = filterDate df d ∧
    summarize (deriveUtilization (filterDate (filterDate df d) d) mesh)
      = summarize (deriveUtilization (filterDate df d) mesh) ∧
    computeEfficiency (filterDate (filterDate df d) d)
      = computeEfficiency (filterDate df d) := by
  have hidem := filterDate_idem d h
  exact ⟨hidem, by rw [hidem], by rw [hidem]⟩

/-- Witness for C9: idempotence on the concrete two-day frame filtered to
day 1. -/
theorem C9_witness :
    filterDate (filterDate twoDayFrame 1) 1 = filterDate twoDayFrame 1 ∧
    summarize (deriveUtilization (filterDate (filterDate twoDayFrame 1) 1) 250)
      = summarize (deriveUtilization (filterDate twoDayFrame 1) 250) ∧
    computeEfficiency (filterDate (filterDate twoDayFrame 1) 1)
      = computeEfficiency (filterDate twoDayFrame 1) :=
  C9_filter_metrics_idempotent twoDayFrame 1 250 3 (by
    intro c hc
    simp [twoDayFrame] at hc
    rcases hc with h | h <;> subst h <;> rfl)

/-- Counterexample for C10: when a Solids Volume Rate (gpm) column is
already present (and utilization is absent), the derivation block
overwrites it — the pre-existing column's values change from [999] to
[20], so not every pre-existing column is left unchanged. -/
theorem C10_counterexample :
    getCol solidsPresentFrame solidsCol = some [999] ∧
    getCol (deriveUtilization solidsPresentFrame 250) solidsCol = some [20] ∧
    getCol (deriveUtilization solidsPresentFrame 250) solidsCol
      ≠ getCol solidsPresentFrame solidsCol := by
  have h1 : getCol solidsPresentFrame solidsCol = some [999] := by
    simp [getCol, solidsPresentFrame, wobCol, flowCol, solidsCol]
  have h2 : getCol (deriveUtilization solidsPresentFrame 250) solidsCol
      = some [20] := by
    simp [deriveUtilization, hasCol, getCol, setCol, solidsPresentFrame,
      wobCol, flowCol, solidsCol, screenCol]
    norm_num
  refine ⟨h1, h2, ?_⟩
  rw [h1, h2]
  simp

/-- Claim C10 as amended: when the derivation computes and no solids-rate
column pre-exists, it appends exactly the two new columns Solids Volume
Rate (gpm) and Screen Utilization (%) at the end; every pre-existing
column keeps its values (hence its row count and row order), and the
column-name sequence is the old one followed by the two new names.  (When a
solids-rate column already exists it is overwritten instead — see the
counterexample.) -/
theorem C10_frame_effect (df : Frame) (mesh : ℚ) (w f : List ℚ)
    (hscreen : getCol df screenCol = none)
    (hsolids : getCol df solidsCol = none)
    (hw : getCol df wobCol = some w) (hf : getCol df flowCol = some f) :
    deriveUtilization df mesh =
      df ++ [(solidsCol, List.zipWith (fun a b => a * b / 100) w f),
             (screenCol, (List.zipWith (fun a b => a * b / 100) w f).map
               (fun s => s / mesh * 100))] ∧
    (∀ name v, getCol df name = some v →
      getCol (deriveUtilization df mesh) name = some v) ∧
    (deriveUtilization df mesh).map Prod.fst
      = df.map Prod.fst ++ [solidsCol, screenCol] := by
  have hhs : hasCol df screenCol = false := by simp [hasCol, hscreen]
  have heq : deriveUtilization df mesh =
      df ++ [(solidsCol, List.zipWith (fun a b => a * b / 100) w f),
             (screenCol, (List.zipWith (fun a b => a * b / 100) w f).map
               (fun s => s / mesh * 100))] := by
    have hstep1 : setCol df solidsCol (List.zipWith (fun a b => a * b / 100) w f)
        = df ++ [(solidsCol, List.zipWith (fun a b => a * b / 100) w f)] :=
      setCol_of_absent _ hsolids
    have habs2 : getCol (df ++ [(solidsCol, List.zipWith (fun a b => a * b / 100) w f)])
        screenCol = none := by
      rw [getCol_append_none hscreen]
      simp [getCol, solidsCol, screenCol]
    simp only [deriveUtilization, hhs, Bool.false_eq_true, if_false, hw, hf]
    rw [hstep1, setCol_of_absent _ habs2, List.append_assoc]
    rfl
  refine ⟨heq, ?_, ?_⟩
  · intro name v hv
    rw [heq]
    exact getCol_append_some _ hv
  · rw [heq, List.map_append]
    rfl

/-- Witness for C10: on the one-row input frame with only the weight-on-bit
and flow-rate columns, the derivation appends exactly the two derived
columns. -/
theorem C10_witness :
    deriveUtilization derivInputFrame 250 =
      derivInputFrame ++
        [(solidsCol, List.zipWith (fun a b => a * b / 100) [10] [200]),
         (screenCol, (List.zipWith (fun a b => a * b / 100) [10] [200]).map
           (fun s => s / 250 * 100))] :=
  (C10_frame_effect derivInputFrame 250 [10] [200]
    (by simp [getCol, derivInputFrame, wobCol, flowCol, screenCol])
    (by simp [getCol, derivInputFrame, wobCol, flowCol, solidsCol])
    (by simp [getCol, derivInputFrame, wobCol, flowCol])
    (by simp [getCol, derivInputFrame, wobCol, flowCol])).1

end Shaker
